import Mathlib

/-!
Verification of the endpoint failover and retry layer of `grapheneapi`
(`src/grapheneapi/api.py`, class `Api`).

The Endpoint Registry (`Api._url_counter`, a Python `collections.Counter`
whose insertion order is the registration order) is embedded as an
association list `List (String × Nat)` from URL to failure count; entries
appear in registration order, an update of an existing key keeps its
position and a write to an absent key appends it at the end, exactly as a
Python dict behaves.

The retry loop of `Api.__getattr__` is embedded as `invokeLoop`, driven by
a list of outcomes of the transport call (one entry per attempt).  The
`except` chain of the loop is mirrored branch for branch:
`KeyboardInterrupt` and `ValueError` re-raise, `RPCError` goes to
`post_process_exception`, every other exception increments the failed
URL's counter (`Api.error_url`), disconnects and moves to the URL chosen
by `Api.find_next` (`Api.next`).  Re-connection to the new URL is modelled
as succeeding (a `connected` event); the outcome list drives only the
transport call itself.
-/

namespace Graphene

/-- The registry `Api._url_counter`: URL to failure count, in registration
order. -/
abbrev Registry := List (String × Nat)

/-- Semantics of `self._url_counter[url] += 1` on a `collections.Counter`:
an existing key is updated in place, an absent key is read as 0 via
`Counter.__missing__` and then written, which appends it with value 1. -/
def counterIncr (c : Registry) (url : String) : Registry :=
  if c.any (fun kv => kv.1 == url) then
    c.map (fun kv => if kv.1 == url then (kv.1, kv.2 + 1) else kv)
  else c ++ [(url, 1)]

/-- `Api.error_url`: `if self.url: self._url_counter[self.url] += 1`.
The guard is Python truthiness of the string, i.e. non-emptiness. -/
def error_url (c : Registry) (url : String) : Registry :=
  if url = "" then c else counterIncr c url

/-- `Api.reset_counter`: sets every counter in the registry to zero. -/
def reset_counter (c : Registry) : Registry :=
  c.map (fun kv => (kv.1, 0))

/-- The filter condition of `Api.find_next`:
`int(self.num_retries) >= 0 and v <= self.num_retries and
 (k != self.url or len(self._url_counter) == 1)`. -/
def eligibleB (c : Registry) (cur : String) (num_retries : Int)
    (kv : String × Nat) : Bool :=
  decide (0 ≤ num_retries) && decide ((kv.2 : Int) ≤ num_retries) &&
    (kv.1 != cur || c.length == 1)

/-- `Api.find_next`: the first registry entry passing `eligibleB`, in
registration order; `none` models raising `NumRetriesReached`. -/
def find_next (c : Registry) (cur : String) (num_retries : Int) :
    Option String :=
  match c.filter (eligibleB c cur num_retries) with
  | [] => none
  | kv :: _ => some kv.1

/-- The exception kinds the `except` chain of `Api.__getattr__`
distinguishes: `KeyboardInterrupt`, `ValueError`, `RPCError`, and any
other `Exception`. -/
inductive PyExc
  | KeyboardInterrupt
  | ValueError
  | RPCError
  | OtherException
deriving DecidableEq

/-- The three error classes of the specification's Error Classifier. -/
inductive ErrClass
  | fatalLocal
  | protocolError
  | transientConnectivity
deriving DecidableEq

/-- The classification realised by the `except` chain of
`Api.__getattr__`: `KeyboardInterrupt` and `ValueError` are re-raised
(fatal-local), `RPCError` goes to the `post_process_exception` hook
(protocol-error), everything else drives failover
(transient-connectivity). -/
def classify : PyExc → ErrClass
  | .KeyboardInterrupt => .fatalLocal
  | .ValueError => .fatalLocal
  | .RPCError => .protocolError
  | .OtherException => .transientConnectivity

/-- The exception a malformed (non-JSON) server response raises, per the
docstring of `Http.rpcexec` in `src/grapheneapi/http.py`:
"raises ValueError: if the server does not respond in proper JSON
format". -/
def malformedResponseExc : PyExc := .ValueError

/-- Outcome of one attempt of the transport call inside the retry loop. -/
inductive CallOutcome
  | success (v : Nat)
  | exc (e : PyExc)
deriving DecidableEq

/-- Observable transport / hook events of one `invoke`. -/
inductive Ev
  | disconnected
  | connected
  | postProcessed
deriving DecidableEq

/-- The mutable state of `Api` the retry loop touches: the registry and
the currently selected URL. -/
structure ApiState where
  counters : Registry
  url : String
deriving DecidableEq

/-- How a single `invoke` (one call of the closure returned by
`Api.__getattr__`) ends. -/
inductive InvokeResult
  | ok (v : Nat)
  | raisedKeyboardInterrupt
  | raisedValueError
  | protocolHandled
  | raisedNumRetriesReached
  | outOfFuel
deriving DecidableEq

/-- Result, final state and event trace of one `invoke`. -/
structure InvokeOut where
  result : InvokeResult
  state : ApiState
  events : List Ev
deriving DecidableEq

/-- The `while True` loop of `Api.__getattr__`, driven by one transport
outcome per attempt.  On success: `reset_counter`, return.  On
`KeyboardInterrupt` / `ValueError`: re-raise.  On `RPCError`: call
`post_process_exception` (the default hook re-raises, ending the call).
On any other exception: `error_url`, then `next()`, which disconnects,
asks `find_next` (raising `NumRetriesReached` when it finds nothing) and
reconnects to the chosen URL; the loop then retries the same call.
`outOfFuel` is the model artifact of an exhausted outcome list. -/
def invokeLoop (num_retries : Int) : List CallOutcome → ApiState → InvokeOut
  | [], s => ⟨.outOfFuel, s, []⟩
  | o :: rest, s =>
    match o with
    | .success v => ⟨.ok v, ⟨reset_counter s.counters, s.url⟩, []⟩
    | .exc .KeyboardInterrupt => ⟨.raisedKeyboardInterrupt, s, []⟩
    | .exc .ValueError => ⟨.raisedValueError, s, []⟩
    | .exc .RPCError => ⟨.protocolHandled, s, [.postProcessed]⟩
    | .exc .OtherException =>
      let c1 := error_url s.counters s.url
      match find_next c1 s.url num_retries with
      | none => ⟨.raisedNumRetriesReached, ⟨c1, s.url⟩, [.disconnected]⟩
      | some u =>
        let out := invokeLoop num_retries rest ⟨c1, u⟩
        ⟨out.result, out.state, .disconnected :: .connected :: out.events⟩

/-- The selection rule exactly as the specification words it for claim C1:
first entry, in registration order, with counter ≤ max_retries and
(address ≠ current or only one address registered).  To be compared with
`find_next`, which was translated from the source. -/
def find_next_spec (c : Registry) (cur : String) (num_retries : Int) :
    Option String :=
  (c.find? (fun kv =>
    decide ((kv.2 : Int) ≤ num_retries) && (kv.1 != cur || c.length == 1))).map
    Prod.fst

theorem head_filter_eq_find? {α : Type} (p : α → Bool) (l : List α) :
    (match l.filter p with
     | [] => none
     | x :: _ => some x) = l.find? p := by
  induction l with
  | nil => rfl
  | cons x t ih =>
    by_cases h : p x
    · simp [List.filter_cons, List.find?, h]
    · simp only [Bool.not_eq_true] at h
      simp [List.filter_cons, List.find?, h, ih]

theorem eligibleB_eq_specPred (c : Registry) (cur : String)
    (num_retries : Int) (kv : String × Nat) :
    eligibleB c cur num_retries kv =
      (decide ((kv.2 : Int) ≤ num_retries) &&
        (kv.1 != cur || c.length == 1)) := by
  by_cases h : (kv.2 : Int) ≤ num_retries
  · have h0 : (0 : Int) ≤ num_retries :=
      le_trans (Int.natCast_nonneg kv.2) h
    simp [eligibleB, h, h0]
  · simp [eligibleB, h]

/-- C1: `find_next` returns the first address in registration order whose
counter is ≤ max_retries and which is distinct from the current address
unless it is the only registered address, and returns nothing (raising
`NumRetriesReached`, the `NoEligibleEndpoint` of the specification)
exactly when no entry satisfies that predicate.  The source's extra
`num_retries >= 0` conjunct is redundant because counters are
non-negative. -/
theorem c1_find_next_spec (c : Registry) (cur : String) (num_retries : Int) :
    find_next c cur num_retries = find_next_spec c cur num_retries ∧
    (find_next c cur num_retries = none ↔
      ∀ kv ∈ c, ¬((kv.2 : Int) ≤ num_retries ∧
        (kv.1 ≠ cur ∨ c.length = 1))) := by
  have hmain : find_next c cur num_retries = find_next_spec c cur num_retries := by
    unfold find_next find_next_spec
    have hfilter : c.filter (eligibleB c cur num_retries) =
        c.filter (fun kv =>
          decide ((kv.2 : Int) ≤ num_retries) && (kv.1 != cur || c.length == 1)) := by
      apply List.filter_congr
      intro kv _
      exact eligibleB_eq_specPred c cur num_retries kv
    rw [hfilter, ← head_filter_eq_find?]
    cases c.filter (fun kv =>
      decide ((kv.2 : Int) ≤ num_retries) && (kv.1 != cur || c.length == 1)) <;>
      simp
  refine ⟨hmain, ?_⟩
  rw [hmain]
  unfold find_next_spec
  rw [Option.map_eq_none', List.find?_eq_none]
  constructor
  · intro h kv hkv hcontra
    have := h kv hkv
    simp only [Bool.and_eq_true, decide_eq_true_eq, Bool.or_eq_true,
      bne_iff_ne, beq_iff_eq] at this
    exact this ⟨hcontra.1, by tauto⟩
  · intro h kv hkv
    have := h kv hkv
    simp only [Bool.and_eq_true, decide_eq_true_eq, Bool.or_eq_true,
      bne_iff_ne, beq_iff_eq]
    tauto

/-- C10: with a negative `num_retries` the filter condition of
`find_next` is false for every entry, so `find_next` raises
`NumRetriesReached` whatever the counters are. -/
theorem c10_negative_retries (c : Registry) (cur : String)
    (num_retries : Int) (h : num_retries < 0) :
    find_next c cur num_retries = none := by
  unfold find_next
  have hfilter : c.filter (eligibleB c cur num_retries) = [] := by
    rw [List.filter_eq_nil_iff]
    intro kv _
    simp [eligibleB, not_le.mpr h]
  rw [hfilter]

/-- C10 witness: a concrete registry whose sole counter is 0 still yields
`NumRetriesReached` when `num_retries` is -1. -/
theorem c10_negative_retries_witness :
    find_next [("ws://a", 0)] "ws://b" (-1) = none :=
  c10_negative_retries [("ws://a", 0)] "ws://b" (-1) (by decide)

/-- C3: with a single registered endpoint and `num_retries = 0`, the
first transient failure increments the sole counter to 1 and `find_next`
finds nothing, so `invoke` raises `NumRetriesReached` at once, after the
disconnect of `Api.next` and before any reconnect. -/
theorem c3_single_endpoint (a : String) (ha : a ≠ "")
    (rest : List CallOutcome) :
    invokeLoop 0 (.exc .OtherException :: rest) ⟨[(a, 0)], a⟩ =
      ⟨.raisedNumRetriesReached, ⟨[(a, 1)], a⟩, [.disconnected]⟩ := by
  simp [invokeLoop, error_url, counterIncr, find_next, eligibleB, ha]

/-- C3 witness: the single endpoint "ws://a" with `num_retries = 0`. -/
theorem c3_single_endpoint_witness :
    invokeLoop 0 [.exc .OtherException] ⟨[("ws://a", 0)], "ws://a"⟩ =
      ⟨.raisedNumRetriesReached, ⟨[("ws://a", 1)], "ws://a"⟩,
        [.disconnected]⟩ :=
  c3_single_endpoint "ws://a" (by decide) []

/-- C5: an `RPCError` from the transport call reaches
`post_process_exception` exactly once (one `postProcessed` event and
nothing else), leaves every counter and the active URL unchanged, and
causes no disconnect or failover. -/
theorem c5_protocol_error (num_retries : Int) (rest : List CallOutcome)
    (s : ApiState) :
    invokeLoop num_retries (.exc .RPCError :: rest) s =
      ⟨.protocolHandled, s, [.postProcessed]⟩ := rfl

/-- C6: a `KeyboardInterrupt` (cancellation) or `ValueError` (local
validation) raised during the call propagates immediately, leaving the
whole state untouched and producing no disconnect or reconnect event. -/
theorem c6_fatal_local (num_retries : Int) (rest : List CallOutcome)
    (s : ApiState) :
    invokeLoop num_retries (.exc .KeyboardInterrupt :: rest) s =
      ⟨.raisedKeyboardInterrupt, s, []⟩ ∧
    invokeLoop num_retries (.exc .ValueError :: rest) s =
      ⟨.raisedValueError, s, []⟩ :=
  ⟨rfl, rfl⟩

theorem two_ep_stepA (a b : String) (hab : a ≠ b) (ha : a ≠ "") (R : Nat)
    (j : Nat) (hj : j ≤ R) (rest : List CallOutcome) :
    (invokeLoop (R : Int) (.exc .OtherException :: rest)
        ⟨[(a, j), (b, j)], a⟩).result =
      (invokeLoop (R : Int) rest ⟨[(a, j + 1), (b, j)], b⟩).result := by
  have h1 : ((j : Int) ≤ (R : Int)) := by exact_mod_cast hj
  simp [invokeLoop, error_url, counterIncr, find_next, eligibleB, ha, hab,
    bne_iff_ne, Ne.symm hab, h1]

theorem two_ep_stepB (a b : String) (hab : a ≠ b) (hb : b ≠ "") (R : Nat)
    (j : Nat) (hj : j + 1 ≤ R) (rest : List CallOutcome) :
    (invokeLoop (R : Int) (.exc .OtherException :: rest)
        ⟨[(a, j + 1), (b, j)], b⟩).result =
      (invokeLoop (R : Int) rest ⟨[(a, j + 1), (b, j + 1)], a⟩).result := by
  have h1 : ((j : Int) + 1 ≤ (R : Int)) := by exact_mod_cast hj
  simp [invokeLoop, error_url, counterIncr, find_next, eligibleB, hb, hab,
    bne_iff_ne, Ne.symm hab, h1]

theorem two_ep_stepExhaust (a b : String) (hab : a ≠ b) (hb : b ≠ "")
    (R : Nat) (rest : List CallOutcome) :
    invokeLoop (R : Int) (.exc .OtherException :: rest)
        ⟨[(a, R + 1), (b, R)], b⟩ =
      ⟨.raisedNumRetriesReached, ⟨[(a, R + 1), (b, R + 1)], b⟩,
        [.disconnected]⟩ := by
  have h1 : ¬((R : Int) + 1 ≤ (R : Int)) := by omega
  simp [invokeLoop, error_url, counterIncr, find_next, eligibleB, hb, hab,
    bne_iff_ne, Ne.symm hab, h1]

theorem two_ep_absorb (a b : String) (hab : a ≠ b) (ha : a ≠ "")
    (hb : b ≠ "") (R : Nat) :
    ∀ d j, j + d = R → ∀ rest : List CallOutcome,
      (invokeLoop (R : Int)
          (List.replicate (2 * d + 1) (.exc .OtherException) ++ rest)
          ⟨[(a, j), (b, j)], a⟩).result =
        (invokeLoop (R : Int) rest ⟨[(a, R + 1), (b, R)], b⟩).result := by
  intro d
  induction d with
  | zero =>
    intro j hj rest
    subst hj
    simp only [Nat.mul_zero, Nat.zero_add, List.replicate_one,
      List.cons_append, List.nil_append]
    rw [two_ep_stepA a b hab ha (j + 0) j (by omega) rest]
    norm_num
  | succ d ih =>
    intro j hj rest
    have hrep : List.replicate (2 * (d + 1) + 1)
        (CallOutcome.exc .OtherException) =
        .exc .OtherException :: .exc .OtherException ::
          List.replicate (2 * d + 1) (.exc .OtherException) := by
      have : 2 * (d + 1) + 1 = (2 * d + 1) + 1 + 1 := by omega
      rw [this, List.replicate_succ, List.replicate_succ]
    rw [hrep]
    simp only [List.cons_append]
    rw [two_ep_stepA a b hab ha R j (by omega),
      two_ep_stepB a b hab hb R j (by omega)]
    exact ih (j + 1) (by omega) rest

/-- C2 counterexample: with 3 endpoints and `num_retries = 1` the claim
predicts that 3 × (1+1) - 1 = 5 consecutive transient failures are
absorbed without raising `NumRetriesReached`; in fact the 5th consecutive
transient failure already raises it (only 4 are absorbed).  The selection
of `find_next` always restarts from the front of the registration order,
so the first two endpoints ping-pong until both exhaust their budget and
the third endpoint then stands alone: after its single failure it is the
current address and hence excluded. -/
theorem c2_counterexample_three_endpoints :
    (invokeLoop 1 (List.replicate 5 (.exc .OtherException))
        ⟨[("ws://a", 0), ("ws://b", 0), ("ws://c", 0)], "ws://a"⟩).result =
      .raisedNumRetriesReached ∧
    (invokeLoop 1 (List.replicate 4 (.exc .OtherException) ++ [.success 0])
        ⟨[("ws://a", 0), ("ws://b", 0), ("ws://c", 0)], "ws://a"⟩).result =
      .ok 0 := by
  constructor <;> decide

/-- C2 (amended to two endpoints): with exactly 2 distinct endpoints and
`num_retries = R`, a single invoke absorbs up to 2 × (R+1) - 1
consecutive transient failures (a subsequent success still returns a
result) and the 2 × (R+1)-th consecutive transient failure raises
`NumRetriesReached`. -/
theorem c2_two_endpoints_bound (a b : String) (hab : a ≠ b) (ha : a ≠ "")
    (hb : b ≠ "") (R : Nat) (v : Nat) :
    (invokeLoop (R : Int)
        (List.replicate (2 * R + 1) (.exc .OtherException) ++ [.success v])
        ⟨[(a, 0), (b, 0)], a⟩).result = .ok v ∧
    (invokeLoop (R : Int)
        (List.replicate (2 * R + 2) (.exc .OtherException))
        ⟨[(a, 0), (b, 0)], a⟩).result = .raisedNumRetriesReached := by
  constructor
  · rw [two_ep_absorb a b hab ha hb R R 0 (by omega) [.success v]]
    rfl
  · have hrep : List.replicate (2 * R + 2) (CallOutcome.exc .OtherException) =
        List.replicate (2 * R + 1) (.exc .OtherException) ++
          [.exc .OtherException] := by
      have : 2 * R + 2 = (2 * R + 1) + 1 := by omega
      rw [this, List.replicate_succ']
    rw [hrep,
      two_ep_absorb a b hab ha hb R R 0 (by omega) [.exc .OtherException],
      two_ep_stepExhaust a b hab hb R []]

/-- C2 witness: endpoints "ws://a", "ws://b" with `num_retries = 1`
absorb 3 consecutive transient failures and raise on the 4th. -/
theorem c2_two_endpoints_bound_witness :
    (invokeLoop 1 (List.replicate 3 (.exc .OtherException) ++ [.success 7])
        ⟨[("ws://a", 0), ("ws://b", 0)], "ws://a"⟩).result = .ok 7 ∧
    (invokeLoop 1 (List.replicate 4 (.exc .OtherException))
        ⟨[("ws://a", 0), ("ws://b", 0)], "ws://a"⟩).result =
      .raisedNumRetriesReached :=
  c2_two_endpoints_bound "ws://a" "ws://b" (by decide) (by decide)
    (by decide) 1 7

/-- C4: whenever the retry loop ends with a successful call, every
counter of the final registry is zero: the success branch runs
`reset_counter` before returning the result. -/
theorem c4_success_resets_counters (num_retries : Int)
    (os : List CallOutcome) (s : ApiState) (v : Nat)
    (h : (invokeLoop num_retries os s).result = .ok v) :
    ((invokeLoop num_retries os s).state.counters).all
      (fun kv => kv.2 == 0) = true := by
  induction os generalizing s with
  | nil => simp [invokeLoop] at h
  | cons o rest ih =>
    cases o with
    | success w =>
      simp [invokeLoop, reset_counter, List.all_eq_true]
    | exc e =>
      cases e with
      | KeyboardInterrupt => simp [invokeLoop] at h
      | ValueError => simp [invokeLoop] at h
      | RPCError => simp [invokeLoop] at h
      | OtherException =>
        cases hf : find_next (error_url s.counters s.url) s.url num_retries with
        | none => simp [invokeLoop, hf] at h
        | some u =>
          simp only [invokeLoop, hf] at h ⊢
          exact ih ⟨error_url s.counters s.url, u⟩ h

/-- C4 witness: a success after prior failures (counters 5 and 7) leaves
every counter at zero. -/
theorem c4_success_resets_counters_witness :
    ((invokeLoop 0 [.success 3]
        ⟨[("ws://a", 5), ("ws://b", 7)], "ws://a"⟩).state.counters).all
      (fun kv => kv.2 == 0) = true :=
  c4_success_resets_counters 0 [.success 3]
    ⟨[("ws://a", 5), ("ws://b", 7)], "ws://a"⟩ 3 (by decide)

/-- C7 counterexample: a malformed server response raises `ValueError`
(docstring of `Http.rpcexec`), and the retry loop classifies `ValueError`
as fatal-local: at a concrete two-endpoint state the error propagates
immediately, no counter is incremented and no failover happens, contrary
to the claim that a malformed response drives failover. -/
theorem c7_counterexample_malformed_response :
    classify malformedResponseExc = .fatalLocal ∧
    classify malformedResponseExc ≠ .transientConnectivity ∧
    invokeLoop 0 [.exc malformedResponseExc]
        ⟨[("ws://a", 0), ("ws://b", 0)], "ws://a"⟩ =
      ⟨.raisedValueError, ⟨[("ws://a", 0), ("ws://b", 0)], "ws://a"⟩,
        []⟩ := by
  refine ⟨rfl, by decide, rfl⟩

/-- C7 (amended): every error that is not a `KeyboardInterrupt`
(cancellation), not a `ValueError` (local validation, which per the
transport's documentation also covers a malformed server response) and
not an `RPCError` (well-formed remote error) is classified
transient-connectivity: it triggers the disconnect of failover and marks
the current URL failed, rather than propagating immediately. -/
theorem c7_other_errors_transient (e : PyExc)
    (h1 : e ≠ .KeyboardInterrupt) (h2 : e ≠ .ValueError)
    (h3 : e ≠ .RPCError) :
    classify e = .transientConnectivity ∧
    (∀ (num_retries : Int) (rest : List CallOutcome) (s : ApiState),
      ((invokeLoop num_retries (.exc e :: rest) s).events).head? =
        some .disconnected) ∧
    (∀ (num_retries : Int) (s : ApiState),
      (invokeLoop num_retries [.exc e] s).state.counters =
        error_url s.counters s.url) := by
  cases e with
  | KeyboardInterrupt => exact absurd rfl h1
  | ValueError => exact absurd rfl h2
  | RPCError => exact absurd rfl h3
  | OtherException =>
    refine ⟨rfl, ?_, ?_⟩
    · intro R rest s
      cases hf : find_next (error_url s.counters s.url) s.url R with
      | none => simp [invokeLoop, hf]
      | some u => simp [invokeLoop, hf]
    · intro R s
      cases hf : find_next (error_url s.counters s.url) s.url R with
      | none => simp [invokeLoop, hf]
      | some u => simp [invokeLoop, hf]

/-- C7 witness: a generic transport exception at a one-endpoint state is
classified transient, starts with a disconnect and increments the failed
URL's counter. -/
theorem c7_other_errors_transient_witness :
    classify .OtherException = .transientConnectivity ∧
    ((invokeLoop 0 [.exc .OtherException]
        ⟨[("ws://a", 0)], "ws://a"⟩).events).head? = some .disconnected ∧
    (invokeLoop 0 [.exc .OtherException]
        ⟨[("ws://a", 0)], "ws://a"⟩).state.counters =
      error_url [("ws://a", 0)] "ws://a" :=
  ⟨(c7_other_errors_transient .OtherException (by decide) (by decide)
      (by decide)).1,
   (c7_other_errors_transient .OtherException (by decide) (by decide)
      (by decide)).2.1 0 [] ⟨[("ws://a", 0)], "ws://a"⟩,
   (c7_other_errors_transient .OtherException (by decide) (by decide)
      (by decide)).2.2 0 ⟨[("ws://a", 0)], "ws://a"⟩⟩

theorem lookup_cons_self (A : String) (v : Nat) (t : Registry) :
    List.lookup A ((A, v) :: t) = some v := by
  simp [List.lookup_cons]

theorem lookup_cons_other (A k : String) (hne : A ≠ k) (v : Nat)
    (t : Registry) : List.lookup A ((k, v) :: t) = List.lookup A t := by
  simp [List.lookup_cons, beq_eq_false_iff_ne.mpr hne]

theorem any_eq_false_lookup (A : String) :
    ∀ c : Registry, c.any (fun kv => kv.1 == A) = false →
      List.lookup A c = none := by
  intro c
  induction c with
  | nil => intro _; rfl
  | cons kv t ih =>
    intro h
    simp only [List.any_cons, Bool.or_eq_false_iff, beq_eq_false_iff_ne] at h
    rw [show kv = (kv.1, kv.2) from rfl,
      lookup_cons_other A kv.1 (Ne.symm h.1) kv.2 t]
    exact ih (by simpa using h.2)

theorem lookup_map_incr (A : String) :
    ∀ c : Registry, c.any (fun kv => kv.1 == A) = true →
      List.lookup A (c.map (fun kv =>
        if kv.1 == A then (kv.1, kv.2 + 1) else kv)) =
        some (((List.lookup A c).getD 0) + 1) := by
  intro c
  induction c with
  | nil => intro h; simp at h
  | cons kv t ih =>
    obtain ⟨k, v⟩ := kv
    intro h
    by_cases hk : k = A
    · subst hk
      simp [List.map_cons, lookup_cons_self]
    · have hkb : (k == A) = false := beq_eq_false_iff_ne.mpr hk
      have ht : t.any (fun kv => kv.1 == A) = true := by
        simpa [hkb] using h
      simp only [List.map_cons, hkb, Bool.false_eq_true, if_false]
      rw [lookup_cons_other A k (Ne.symm hk) v _,
        lookup_cons_other A k (Ne.symm hk) v t, ih ht]

theorem lookup_append_absent (A : String) :
    ∀ c : Registry, c.any (fun kv => kv.1 == A) = false →
      List.lookup A (c ++ [(A, 1)]) = some 1 := by
  intro c
  induction c with
  | nil => intro _; simp [lookup_cons_self]
  | cons kv t ih =>
    obtain ⟨k, v⟩ := kv
    intro h
    simp only [List.any_cons, Bool.or_eq_false_iff, beq_eq_false_iff_ne] at h
    rw [List.cons_append, lookup_cons_other A k (Ne.symm h.1) v _]
    exact ih (by simpa using h.2)

theorem lookup_map_incr_other (A B : String) (hBA : B ≠ A) :
    ∀ c : Registry,
      List.lookup B (c.map (fun kv =>
        if kv.1 == A then (kv.1, kv.2 + 1) else kv)) = List.lookup B c := by
  intro c
  induction c with
  | nil => rfl
  | cons kv t ih =>
    obtain ⟨k, v⟩ := kv
    by_cases hk : k = A
    · subst hk
      have hBk : B ≠ k := hBA
      simp only [List.map_cons, beq_self_eq_true, if_true]
      rw [lookup_cons_other B k hBk (v + 1) _,
        lookup_cons_other B k hBk v t, ih]
    · have hkb : (k == A) = false := beq_eq_false_iff_ne.mpr hk
      simp only [List.map_cons, hkb, Bool.false_eq_true, if_false]
      by_cases hBk : B = k
      · subst hBk
        rw [lookup_cons_self, lookup_cons_self]
      · rw [lookup_cons_other B k hBk v _,
          lookup_cons_other B k hBk v t, ih]

theorem lookup_append_other (A B : String) (hBA : B ≠ A) :
    ∀ c : Registry, List.lookup B (c ++ [(A, 1)]) = List.lookup B c := by
  intro c
  induction c with
  | nil => simp [lookup_cons_other B A hBA]
  | cons kv t ih =>
    obtain ⟨k, v⟩ := kv
    by_cases hBk : B = k
    · subst hBk
      rw [List.cons_append, lookup_cons_self, lookup_cons_self]
    · rw [List.cons_append, lookup_cons_other B k hBk v _,
        lookup_cons_other B k hBk v t, ih]

/-- C8 counterexample: `error_url` (the `mark_failed` of the
specification) on an address absent from the registry is not a no-op:
reading the missing key of the `Counter` yields 0 and the write then
inserts the address with counter 1, changing the registry mapping. -/
theorem c8_counterexample_absent_address :
    error_url [("ws://a", 0)] "ws://b" = [("ws://a", 0), ("ws://b", 1)] ∧
    error_url [("ws://a", 0)] "ws://b" ≠ [("ws://a", 0)] := by
  constructor <;> decide

/-- C8 (amended): for a non-empty address, `error_url` increments that
address's counter by exactly one — treating an absent address as having
counter 0, so an absent address is inserted with counter 1 (not an
error) — and leaves the counter of every other address unchanged; for
the empty address (falsy in Python) it is a no-op. -/
theorem c8_mark_failed_effect (c : Registry) (A : String) (hA : A ≠ "") :
    List.lookup A (error_url c A) = some (((List.lookup A c).getD 0) + 1) ∧
    (∀ B, B ≠ A → List.lookup B (error_url c A) = List.lookup B c) ∧
    error_url c "" = c := by
  refine ⟨?_, ?_, by simp [error_url]⟩
  · rw [error_url, if_neg hA, counterIncr]
    by_cases h : c.any (fun kv => kv.1 == A)
    · rw [if_pos h]
      exact lookup_map_incr A c h
    · have hf : c.any (fun kv => kv.1 == A) = false :=
        Bool.eq_false_iff.mpr h
      rw [if_neg h, lookup_append_absent A c hf, any_eq_false_lookup A c hf]
      rfl
  · intro B hB
    rw [error_url, if_neg hA, counterIncr]
    by_cases h : c.any (fun kv => kv.1 == A)
    · rw [if_pos h]
      exact lookup_map_incr_other A B hB c
    · rw [if_neg h]
      exact lookup_append_other A B hB c

/-- C8 witness: marking the registered address "ws://a" (counter 2)
yields counter 3, leaves "ws://b" unchanged, and the empty address is a
no-op. -/
theorem c8_mark_failed_effect_witness :
    List.lookup "ws://a" (error_url [("ws://a", 2)] "ws://a") = some 3 ∧
    List.lookup "ws://b" (error_url [("ws://a", 2)] "ws://a") =
      List.lookup "ws://b" [("ws://a", 2)] ∧
    error_url [("ws://a", 2)] "" = [("ws://a", 2)] :=
  ⟨(c8_mark_failed_effect [("ws://a", 2)] "ws://a" (by decide)).1,
   (c8_mark_failed_effect [("ws://a", 2)] "ws://a" (by decide)).2.1
     "ws://b" (by decide),
   (c8_mark_failed_effect [("ws://a", 2)] "ws://a" (by decide)).2.2⟩

theorem any_of_mem_keys (A : String) (c : Registry)
    (h : A ∈ c.map Prod.fst) : c.any (fun kv => kv.1 == A) = true := by
  simp only [List.mem_map] at h
  obtain ⟨kv, hmem, hfst⟩ := h
  simp only [List.any_eq_true]
  exact ⟨kv, hmem, by simp [hfst]⟩

theorem keys_error_url_of_mem (A : String) (c : Registry)
    (h : A ∈ c.map Prod.fst) :
    (error_url c A).map Prod.fst = c.map Prod.fst := by
  unfold error_url counterIncr
  by_cases hA : A = ""
  · rw [if_pos hA]
  · rw [if_neg hA, if_pos (any_of_mem_keys A c h), List.map_map]
    apply List.map_congr_left
    intro kv _
    by_cases hk : kv.1 = A <;> simp [hk]

theorem mem_reset_counter (A : String) (c : Registry)
    (h : A ∈ c.map Prod.fst) : (A, 0) ∈ reset_counter c := by
  simp only [List.mem_map] at h
  obtain ⟨kv, hmem, hfst⟩ := h
  unfold reset_counter
  simp only [List.mem_map]
  exact ⟨kv, hmem, by simp [hfst]⟩

theorem lookup_reset_counter (A : String) :
    ∀ c : Registry, A ∈ c.map Prod.fst →
      List.lookup A (reset_counter c) = some 0 := by
  intro c
  induction c with
  | nil => intro h; simp at h
  | cons kv t ih =>
    obtain ⟨k, v⟩ := kv
    intro h
    by_cases hk : k = A
    · subst hk
      unfold reset_counter
      rw [List.map_cons]
      exact lookup_cons_self k 0 _
    · have ht : A ∈ t.map Prod.fst := by
        simp only [List.map_cons, List.mem_cons] at h
        exact h.resolve_left (fun hc => hk hc.symm)
      unfold reset_counter at ih ⊢
      rw [List.map_cons, lookup_cons_other A k (fun hc => hk hc.symm) 0 _]
      exact ih ht

theorem eligibleB_of_ne (c : Registry) (cur A : String) (num_retries : Int)
    (hR : 0 ≤ num_retries) (hcur : cur ≠ A) :
    eligibleB c cur num_retries (A, 0) = true := by
  simp [eligibleB, hR, bne_iff_ne, Ne.symm hcur]

/-- C9: after `error_url A` (mark_failed) followed by `reset_counter`
(reset_all), the address A is back at counter zero and immediately
eligible again: it passes the `find_next` filter for every current
address different from A; when A is the sole registered address
`find_next` returns A itself, and when A is first in registration order
`find_next` from any other current address returns A. -/
theorem c9_roundtrip_eligible (c : Registry) (A : String)
    (num_retries : Int) (hA : A ∈ c.map Prod.fst)
    (hR : 0 ≤ num_retries) :
    List.lookup A (reset_counter (error_url c A)) = some 0 ∧
    (∀ cur, cur ≠ A →
      (A, 0) ∈ (reset_counter (error_url c A)).filter
        (eligibleB (reset_counter (error_url c A)) cur num_retries)) ∧
    (c.length = 1 →
      find_next (reset_counter (error_url c A)) A num_retries = some A) ∧
    (∀ cur, cur ≠ A →
      (reset_counter (error_url c A)).head? = some (A, 0) →
      find_next (reset_counter (error_url c A)) cur num_retries =
        some A) := by
  have hkeys : A ∈ (error_url c A).map Prod.fst := by
    rw [keys_error_url_of_mem A c hA]; exact hA
  refine ⟨lookup_reset_counter A _ hkeys, ?_, ?_, ?_⟩
  · intro cur hcur
    exact List.mem_filter.mpr
      ⟨mem_reset_counter A _ hkeys,
       eligibleB_of_ne _ cur A num_retries hR hcur⟩
  · intro hlen
    match c, hlen with
    | [(k, v)], _ =>
      have hk : A = k := by simpa using hA
      subst hk
      have hcomp : reset_counter (error_url [(A, v)] A) = [(A, 0)] := by
        unfold error_url counterIncr reset_counter
        by_cases hke : A = "" <;> simp [hke]
      rw [hcomp]
      simp [find_next, eligibleB, hR]
  · intro cur hcur hhead
    match hc : reset_counter (error_url c A), hhead with
    | (A', v') :: t, hhead =>
      have hAv : A' = A ∧ v' = 0 := by
        simp only [List.head?_cons, Option.some_inj, Prod.mk.injEq] at hhead
        exact hhead
      obtain ⟨rfl, rfl⟩ := hAv
      unfold find_next
      rw [List.filter_cons_of_pos]
      exact eligibleB_of_ne _ cur A' num_retries hR hcur

/-- C9 witness: registry [("ws://a", 2), ("ws://b", 5)], failed address
"ws://a": after mark_failed and reset_all its counter is zero, it passes
the filter for current "ws://b" and `find_next` from "ws://b" returns it;
in the singleton registry [("ws://a", 2)] `find_next` re-selects
"ws://a" itself. -/
theorem c9_roundtrip_eligible_witness :
    List.lookup "ws://a"
      (reset_counter (error_url [("ws://a", 2), ("ws://b", 5)] "ws://a")) =
      some 0 ∧
    ("ws://a", 0) ∈
      (reset_counter (error_url [("ws://a", 2), ("ws://b", 5)] "ws://a")).filter
        (eligibleB
          (reset_counter (error_url [("ws://a", 2), ("ws://b", 5)] "ws://a"))
          "ws://b" 0) ∧
    find_next
      (reset_counter (error_url [("ws://a", 2), ("ws://b", 5)] "ws://a"))
      "ws://b" 0 = some "ws://a" ∧
    find_next (reset_counter (error_url [("ws://a", 2)] "ws://a"))
      "ws://a" 0 = some "ws://a" :=
  ⟨(c9_roundtrip_eligible [("ws://a", 2), ("ws://b", 5)] "ws://a" 0
      (by decide) (by decide)).1,
   (c9_roundtrip_eligible [("ws://a", 2), ("ws://b", 5)] "ws://a" 0
      (by decide) (by decide)).2.1 "ws://b" (by decide),
   (c9_roundtrip_eligible [("ws://a", 2), ("ws://b", 5)] "ws://a" 0
      (by decide) (by decide)).2.2.2 "ws://b" (by decide) (by decide),
   (c9_roundtrip_eligible [("ws://a", 2)] "ws://a" 0
      (by decide) (by decide)).2.2.1 (by decide)⟩

end Graphene
